import Mathlib

/-!
Verification of the tabular reconciliation engine of the housing repository
(`src/frontend/google_sheets_client.py`, class `GoogleSheetsClient`).

The Python code is shallowly embedded: cell values are `String`s (Python
truthiness of a cell is emptiness of the string), a fetched sheet is a
`Grid` (list of ragged rows), Python `dict`s / `OrderedDict`s are modelled
as association lists with insert-updates-in-place semantics, and each
`raise ValueError` site becomes an `Except` error constructor.
-/

set_option maxHeartbeats 1000000

namespace Housing

/-- A single cell's formatted value, as returned by the values API. -/
abbrev Cell := String

/-- One (possibly ragged) row of fetched sheet data. -/
abbrev Row := List Cell

/-- `SheetData` / Grid: nested list of cells (`sheet_data` in the source). -/
abbrev Grid := List Row

/-- One keyed row (`Dict[str, Any]` in the source), insertion ordered. -/
abbrev SmartRow := List (String × String)

/-- `header_to_col_num`: ordered mapping from sanitized header to 0-based column. -/
abbrev HeaderMap := List (String × Nat)

/-- Python `dict` assignment `m[k] = v`: updates the value in place if the key
exists (keeping its position, as `dict`/`OrderedDict` do), else appends. -/
def dict_insert {α β : Type} [BEq α] (m : List (α × β)) (k : α) (v : β) : List (α × β) :=
  match m with
  | [] => [(k, v)]
  | p :: rest => if p.1 == k then (k, v) :: rest else p :: dict_insert rest k v

/-- Python `str.strip()` on a list of characters: drop whitespace at both ends. -/
def py_strip (cs : List Char) : List Char :=
  ((cs.dropWhile Char.isWhitespace).reverse.dropWhile Char.isWhitespace).reverse

/-- `_sanitize_header`: `input_header.lower().strip().replace(' ', '_')`. -/
def sanitize_header (s : String) : String :=
  String.mk ((py_strip (s.data.map Char.toLower)).map (fun c => if c = ' ' then '_' else c))

/-- `_is_headers_match`: sanitized equality of two header strings. -/
def is_headers_match (header_1 header_2 : String) : Bool :=
  sanitize_header header_1 == sanitize_header header_2

/-- The inner cell loop of `_find_headers`: a row is the header row as soon as
any of its cells matches any possible header. -/
def row_is_header_row (possible_headers : List String) (row : Row) : Bool :=
  row.any (fun cell => possible_headers.any (fun ph => is_headers_match ph cell))

/-- The `for j, header in enumerate(existing_row)` loop of `_find_headers`:
`header_to_col_num[_sanitize_header(header)] = j` for every cell. -/
def build_header_aux : Nat → Row → HeaderMap → HeaderMap
  | _, [], m => m
  | j, cell :: rest, m => build_header_aux (j + 1) rest (dict_insert m (sanitize_header cell) j)

/-- Build the `header_to_col_num` OrderedDict from the located header row. -/
def build_header_to_col_num (row : Row) : HeaderMap :=
  build_header_aux 0 row []

/-- `HeaderData` named tuple of the source. -/
structure HeaderData where
  header_to_col_num : HeaderMap
  header_row_num : Nat
deriving DecidableEq, Repr

/-- The `ValueError` raised at the bottom of `_find_headers`, carrying the
expected headers and a dump of the scanned sheet, as the message does. -/
inductive HeaderError where
  | headerNotFound (possible_headers : List String) (sheet_data : Grid)
deriving DecidableEq, Repr

/-- `_find_headers(sheet_data, possible_headers)`.  The source scans rows top
to bottom for the first row with any matching cell, takes that whole row as
headers, and then guards the success path with `if not header_row_num:` —
Python falsiness, which also treats a header row found at index 0 as absent. -/
def find_headers (sheet_data : Grid) (possible_headers : List String) :
    Except HeaderError HeaderData :=
  match sheet_data.findIdx? (row_is_header_row possible_headers) with
  | none => .error (.headerNotFound possible_headers sheet_data)
  | some i =>
    if i = 0 then
      .error (.headerNotFound possible_headers sheet_data)
    else
      .ok ⟨build_header_to_col_num (sheet_data.getD i []), i⟩

/-- The body of the row loop of `smart_get`: for each `(header, col_num)` in
`header_to_col_num`, skip columns past the ragged row's end, and keep only
truthy (non-empty) cells, as `row_result[header] = cell_data`. -/
def smart_row_of (hm : HeaderMap) (row_data : Row) : SmartRow :=
  hm.foldl
    (fun row_result p =>
      if p.2 < row_data.length then
        if row_data.getD p.2 "" ≠ "" then dict_insert row_result p.1 (row_data.getD p.2 "")
        else row_result
      else row_result)
    []

/-- `smart_get`: rows `header_row_num+1 .. len(sheet_data)-1` keyed by header,
dropping rows whose resulting dict is empty. -/
def smart_get (sheet_data : Grid) (hd : HeaderData) : List SmartRow :=
  (List.range' (hd.header_row_num + 1) (sheet_data.length - (hd.header_row_num + 1))).foldl
    (fun result i =>
      let row_result := smart_row_of hd.header_to_col_num (sheet_data.getD i [])
      if row_result ≠ [] then result ++ [row_result] else result)
    []

/-- `row_col_num_to_A1`: 0-based row and column to A1 notation,
`f'{chr(ord("A") + col_num)}{row_num + 1}'`. -/
def row_col_num_to_A1 (row_num col_num : Nat) : String :=
  String.mk [Char.ofNat ('A'.toNat + col_num)] ++ toString (row_num + 1)

/-- A PrimaryKey tuple: one slot per configured key field, `none` for missing. -/
abbrev PrimaryKey := List (Option String)

/-- `row_to_primary_key_values`: `tuple(row[key] if key in row else None for key in primary_keys)`. -/
def row_to_primary_key_values (primary_keys : List String) (row : SmartRow) : PrimaryKey :=
  primary_keys.map (fun key => List.lookup key row)

/-- Build `primary_keys_to_row_num`: rows setting any primary-key field are
indexed by their key tuple at `row_num + header_row_num + 1`, later duplicate
tuples overwriting earlier ones. -/
def build_key_index (primary_keys : List String) (header_row_num : Nat) :
    Nat → List SmartRow → List (PrimaryKey × Nat) → List (PrimaryKey × Nat)
  | _, [], m => m
  | row_num, current_row :: rest, m =>
    if primary_keys.any (fun key => (List.lookup key current_row).isSome) then
      build_key_index primary_keys header_row_num (row_num + 1) rest
        (dict_insert m (row_to_primary_key_values primary_keys current_row)
          (row_num + header_row_num + 1))
    else
      build_key_index primary_keys header_row_num (row_num + 1) rest m

/-- `primary_keys_to_row_num` built from the smart rows. -/
def primary_keys_to_row_num (primary_keys : List String) (header_row_num : Nat)
    (smart_rows : List SmartRow) : List (PrimaryKey × Nat) :=
  build_key_index primary_keys header_row_num 0 smart_rows []

/-- The three `raise ValueError` sites of the record loop in `smart_update`. -/
inductive UpdateError where
  | missingPrimaryKey (i : Nat)
  | unknownRecord (i : Nat) (key : PrimaryKey)
  | noUpdatableColumns (i : Nat)
deriving DecidableEq, Repr

/-- One element of `update_requests`: `{'range': ..., 'values': [[updated_cell]]}`. -/
structure UpdateOp where
  range : String
  values : List (List String)
deriving DecidableEq, Repr

/-- The `for header, updated_cell in updated_row.items()` loop of the update
path: skip primary-key fields and fields absent from `header_to_col_num`;
otherwise record that an updatable column was found and emit a one-cell
update at `(row_num, col_num)`. -/
def update_ops_fold (hm : HeaderMap) (primary_keys : List String) (row_num : Nat)
    (updated_row : SmartRow) : Bool × List UpdateOp :=
  updated_row.foldl
    (fun acc p =>
      if primary_keys.contains p.1 then acc
      else
        match List.lookup p.1 hm with
        | none => acc
        | some col_num => (true, acc.2 ++ [⟨row_col_num_to_A1 row_num col_num, [[p.2]]⟩]))
    (false, [])

/-- One iteration of the record loop of `smart_update`: validate the primary
key, route to the update path (emitting cell ops) or the append path
(queueing the row), or fail.  Returns the ops emitted and rows queued for
this record. -/
def process_row (hm : HeaderMap) (primary_keys : List String)
    (key_index : List (PrimaryKey × Nat)) (upsert : Bool) (i : Nat)
    (updated_row : SmartRow) : Except UpdateError (List UpdateOp × List SmartRow) :=
  if primary_keys.any (fun key => (List.lookup key updated_row).isSome) then
    let primary_key_values := row_to_primary_key_values primary_keys updated_row
    match List.lookup primary_key_values key_index with
    | none =>
      if upsert then .ok ([], [updated_row])
      else .error (.unknownRecord i primary_key_values)
    | some row_num =>
      let r := update_ops_fold hm primary_keys row_num updated_row
      if r.1 then .ok (r.2, []) else .error (.noUpdatableColumns i)
  else
    .error (.missingPrimaryKey i)

/-- The whole `for i, updated_row in enumerate(_values)` loop: fail-fast,
accumulating `update_requests` and `rows_to_append` in input order. -/
def build_update_plan_aux (hm : HeaderMap) (primary_keys : List String)
    (key_index : List (PrimaryKey × Nat)) (upsert : Bool) :
    Nat → List SmartRow → List UpdateOp → List SmartRow →
    Except UpdateError (List UpdateOp × List SmartRow)
  | _, [], update_requests, rows_to_append => .ok (update_requests, rows_to_append)
  | i, updated_row :: rest, update_requests, rows_to_append =>
    match process_row hm primary_keys key_index upsert i updated_row with
    | .error e => .error e
    | .ok (new_ops, new_appends) =>
      build_update_plan_aux hm primary_keys key_index upsert (i + 1) rest
        (update_requests ++ new_ops) (rows_to_append ++ new_appends)

/-- The operation-list construction of `smart_update` (everything between the
key-index build and the `batchUpdate` call). -/
def build_update_plan (hm : HeaderMap) (primary_keys : List String)
    (key_index : List (PrimaryKey × Nat)) (upsert : Bool) (vals : List SmartRow) :
    Except UpdateError (List UpdateOp × List SmartRow) :=
  build_update_plan_aux hm primary_keys key_index upsert 0 vals [] []

/-- `min_col_num` of `smart_append`: `header_to_col_num[next(iter(header_to_col_num))]`,
the current value of the first key of the OrderedDict. -/
def min_col_num (hm : HeaderMap) : Nat :=
  (hm.headD ("", 0)).2

/-- `max_col_num` of `smart_append`: `header_to_col_num[next(reversed(header_to_col_num))]`,
the current value of the last key of the OrderedDict. -/
def max_col_num (hm : HeaderMap) : Nat :=
  (hm.getLastD ("", 0)).2

/-- Failures of `smart_append`'s row-building loop: a Python `IndexError` from
`row_data[min_col_num + col_num] = cell_data`, or the explicit `ValueError`
when a row populated zero cells. -/
inductive AppendError where
  | indexError
  | noMatchingColumns (i : Nat)
deriving DecidableEq, Repr

/-- Python list assignment `row[idx] = v`: in-range update or `IndexError`. -/
def set_cell (row : Row) (idx : Nat) (v : String) : Option Row :=
  if idx < row.length then some (row.set idx v) else none

/-- The `for header, col_num in self.header_to_col_num.items()` loop of
`smart_append`: place each truthy supplied value at `min_col_num + col_num`
and count populated cells. -/
def fill_row (minc : Nat) (row_to_append : SmartRow) :
    List (String × Nat) → Row × Nat → Except AppendError (Row × Nat)
  | [], acc => .ok acc
  | (header, col_num) :: rest, acc =>
    match List.lookup header row_to_append with
    | none => fill_row minc row_to_append rest acc
    | some cell_data =>
      if cell_data ≠ "" then
        match set_cell acc.1 (minc + col_num) cell_data with
        | none => .error .indexError
        | some new_row => fill_row minc row_to_append rest (new_row, acc.2 + 1)
      else fill_row minc row_to_append rest acc

/-- Build one append row: a buffer `[''] * (max_col_num + 1)` filled by
`fill_row`; zero populated cells is the `ValueError` for record `i`. -/
def build_append_row (hm : HeaderMap) (i : Nat) (row_to_append : SmartRow) :
    Except AppendError Row :=
  match fill_row (min_col_num hm) row_to_append hm (List.replicate (max_col_num hm + 1) "", 0) with
  | .error e => .error e
  | .ok (row_data, populated_cells) =>
    if populated_cells = 0 then .error (.noMatchingColumns i) else .ok row_data

/-- `append_data` accumulation over all rows to append. -/
def build_append_data (hm : HeaderMap) : Nat → List SmartRow → Except AppendError (List Row)
  | _, [] => .ok []
  | i, row_to_append :: rest =>
    match build_append_row hm i row_to_append with
    | .error e => .error e
    | .ok row_data =>
      match build_append_data hm (i + 1) rest with
      | .error e => .error e
      | .ok rows => .ok (row_data :: rows)

/-- `table_tl` of `smart_append`:
`f'{chr(ord("A") + min_col_num)}{self.header_row_num + 1}'`. -/
def table_top_left (hm : HeaderMap) (header_row_num : Nat) : String :=
  String.mk [Char.ofNat ('A'.toNat + min_col_num hm)] ++ toString (header_row_num + 1)

/-- `smart_append` up to the `self.append(...)` call: the anchor range and the
values handed to the one append request. -/
def smart_append (hm : HeaderMap) (header_row_num : Nat) (vals : List SmartRow) :
    Except AppendError (String × List Row) :=
  match build_append_data hm 0 vals with
  | .error e => .error e
  | .ok append_data => .ok (table_top_left hm header_row_num, append_data)

/-- `GridRange` named tuple of the source. -/
structure GridRange where
  min_col : Nat
  min_row : Nat
  max_col : Nat
  max_row : Nat
deriving DecidableEq, Repr

/-- The google-side GridRange dict produced by `to_google_GridRange`. -/
structure GoogleGridRange where
  sheetId : Nat
  startRowIndex : Nat
  endRowIndex : Nat
  startColumnIndex : Nat
  endColumnIndex : Nat
deriving DecidableEq, Repr

/-- `GridRange.to_google_GridRange`. -/
def GridRange.to_google_GridRange (gr : GridRange) (sheet_num : Nat) : GoogleGridRange :=
  ⟨sheet_num, gr.min_row, gr.max_row, gr.min_col, gr.max_col⟩

/-- `MAX_ROWS` class constant. -/
def MAX_ROWS : Nat := 999

/-- `MAX_COLS` class constant. -/
def MAX_COLS : Nat := 26

/-- One entry of the `sortSpecs`/`setBasicFilter` request built by `sort()`. -/
structure SortRequest where
  dimensionIndex : Nat
  sortOrder : String
  range : GoogleGridRange
deriving DecidableEq, Repr

/-- `sort(col_num, grid_range, asc)`: the single-element `requests` list of the
one `batchUpdate` call it issues. -/
def sort_requests (col_num : Nat) (grid_range : GridRange) (asc : Bool) : List SortRequest :=
  [⟨col_num, if asc then "ASCENDING" else "DESCENDING", grid_range.to_google_GridRange 0⟩]

/-- The `ValueError` of `smart_sort` for an unknown sort column. -/
inductive SortError where
  | unknownSortColumn (sort_key : String)
deriving DecidableEq, Repr

/-- `smart_sort(sort_key, asc)`: resolve the column, then sort the range
`GridRange(min_row=header_row_num, max_row=MAX_ROWS, min_col=0, max_col=MAX_COLS)`. -/
def smart_sort (hm : HeaderMap) (header_row_num : Nat) (sort_key : String) (asc : Bool) :
    Except SortError (List SortRequest) :=
  match List.lookup sort_key hm with
  | none => .error (.unknownSortColumn sort_key)
  | some sort_col_num =>
    .ok (sort_requests sort_col_num ⟨0, header_row_num, MAX_COLS, MAX_ROWS⟩ asc)

/-- The write calls a `smart_update` run can issue against the sheet service,
in order: the batched cell update, the append, and the sort request. -/
inductive WriteCall where
  | valuesBatchUpdate (update_requests : List UpdateOp)
  | valuesAppend (range : String) (values : List Row)
  | sortBatchUpdate (requests : List SortRequest)
deriving DecidableEq, Repr

/-- Any error a `smart_update` run can abort with. -/
inductive RunError where
  | header (e : HeaderError)
  | update (e : UpdateError)
  | append (e : AppendError)
  | sort (e : SortError)
deriving DecidableEq, Repr

/-- The optional trailing `smart_sort` of `smart_update`. -/
def sort_phase (hm : HeaderMap) (header_row_num : Nat) (sort_key : Option String)
    (sort_asc : Bool) (calls : List WriteCall) : List WriteCall × Option RunError :=
  match sort_key with
  | none => (calls, none)
  | some sk =>
    match smart_sort hm header_row_num sk sort_asc with
    | .error e => (calls, some (.sort e))
    | .ok reqs => (calls ++ [.sortBatchUpdate reqs], none)

/-- A whole `smart_update(_values, primary_keys, upsert, sort_key, sort_asc)`
run as a trace: the sheet-mutating calls actually issued, in order, plus the
error (if any) that aborted the run.  The initial `smart_get()` refetch and
header discovery happen before any write; the record loop runs before the
`batchUpdate`; `smart_append` is invoked (with no sort key) only when
`upsert` is true; the sort runs last. -/
def smart_update_run (sheet_data : Grid) (possible_headers : List String)
    (vals : List SmartRow) (primary_keys : List String) (upsert : Bool)
    (sort_key : Option String) (sort_asc : Bool) : List WriteCall × Option RunError :=
  match find_headers sheet_data possible_headers with
  | .error e => ([], some (.header e))
  | .ok hd =>
    let current_sheet_data_smart := smart_get sheet_data hd
    let key_index :=
      primary_keys_to_row_num primary_keys hd.header_row_num current_sheet_data_smart
    match build_update_plan hd.header_to_col_num primary_keys key_index upsert vals with
    | .error e => ([], some (.update e))
    | .ok (update_requests, rows_to_append) =>
      let calls := [WriteCall.valuesBatchUpdate update_requests]
      if upsert then
        match smart_append hd.header_to_col_num hd.header_row_num rows_to_append with
        | .error e => (calls, some (.append e))
        | .ok (anchor, append_data) =>
          sort_phase hd.header_to_col_num hd.header_row_num sort_key sort_asc
            (calls ++ [.valuesAppend anchor append_data])
      else
        sort_phase hd.header_to_col_num hd.header_row_num sort_key sort_asc calls

/-! Spec-side comparison definitions (written from the specification's words,
to be compared with the source-derived definitions above). -/

/-- From the spec: for each `(name, col)` in the HeaderMap, read `row[col]` if
`col` is within the row's length; keep the pair only if the value is
non-empty. -/
def spec_keyed_row (hm : HeaderMap) (row : Row) : SmartRow :=
  hm.filterMap (fun p =>
    if p.2 < row.length ∧ row.getD p.2 "" ≠ "" then some (p.1, row.getD p.2 "") else none)

/-- From the spec: smart get maps rows `header_row+1 ..` to keyed mappings and
drops rows whose mapping has zero entries. -/
def spec_smart_get (sheet_data : Grid) (hd : HeaderData) : List SmartRow :=
  ((List.range' (hd.header_row_num + 1) (sheet_data.length - (hd.header_row_num + 1))).map
    (fun i => spec_keyed_row hd.header_to_col_num (sheet_data.getD i []))).filter
    (fun m => !m.isEmpty)

/-- The last (largest) column index `≥ j` whose cell, sanitized, equals `k` —
the value a sanitized header name ends up mapped to when later duplicates
overwrite earlier ones. -/
def last_col_from (j : Nat) (row : Row) (k : String) : Option Nat :=
  match row with
  | [] => none
  | cell :: rest =>
    match last_col_from (j + 1) rest k with
    | some c => some c
    | none => if sanitize_header cell == k then some j else none

/-- The entries of a record that survive the update path's two `continue`
guards: not a primary-key field, and present in the HeaderMap. -/
def update_hits (hm : HeaderMap) (primary_keys : List String) (r : SmartRow) : SmartRow :=
  r.filter (fun p => !primary_keys.contains p.1 && (List.lookup p.1 hm).isSome)

/-! Helper lemmas. -/

theorem lookup_dict_insert {α β : Type} [BEq α] [LawfulBEq α]
    (m : List (α × β)) (k' k : α) (v : β) :
    List.lookup k (dict_insert m k' v) = if k' == k then some v else List.lookup k m := by
  induction m with
  | nil =>
    simp only [dict_insert, List.lookup]
    by_cases h : k' = k
    · subst h; simp
    · have h1 : (k' == k) = false := beq_false_of_ne h
      have h2 : (k == k') = false := beq_false_of_ne (fun hh => h hh.symm)
      simp [h1, h2]
  | cons p rest ih =>
    by_cases hpk : p.1 = k'
    · simp only [dict_insert, hpk, beq_self_eq_true, if_true]
      by_cases hk : k' = k
      · simp [hk, List.lookup]
      · have h1 : (k' == k) = false := beq_false_of_ne hk
        have h2 : (k == k') = false := beq_false_of_ne (fun h => hk h.symm)
        simp [List.lookup, h1, h2, hpk]
    · have hp : (p.1 == k') = false := beq_false_of_ne hpk
      simp only [dict_insert, hp, Bool.false_eq_true, if_false]
      rcases p with ⟨a, b⟩
      simp only at hpk hp
      by_cases hak : a = k
      · subst hak
        have hk : (k' == a) = false := beq_false_of_ne (fun h => hpk h.symm)
        simp [List.lookup, hk]
      · have ha : (k == a) = false := beq_false_of_ne (fun h => hak h.symm)
        simp [List.lookup, ha, ih]

theorem dict_insert_append {α β : Type} [BEq α] [LawfulBEq α]
    (m : List (α × β)) (k : α) (v : β) (h : ∀ q ∈ m, q.1 ≠ k) :
    dict_insert m k v = m ++ [(k, v)] := by
  induction m with
  | nil => rfl
  | cons p rest ih =>
    have hp : (p.1 == k) = false := beq_false_of_ne (h p (by simp))
    simp only [dict_insert, hp, Bool.false_eq_true, if_false, List.cons_append,
      List.cons.injEq, true_and]
    exact ih (fun q hq => h q (by simp [hq]))

theorem lookup_build_header_aux (row : Row) :
    ∀ (j : Nat) (m : HeaderMap) (k : String),
      List.lookup k (build_header_aux j row m) =
        match last_col_from j row k with
        | some c => some c
        | none => List.lookup k m := by
  induction row with
  | nil => intro j m k; simp [build_header_aux, last_col_from]
  | cons cell rest ih =>
    intro j m k
    simp only [build_header_aux, last_col_from]
    rw [ih (j + 1) (dict_insert m (sanitize_header cell) j) k]
    cases last_col_from (j + 1) rest k with
    | some c => rfl
    | none =>
      simp only
      rw [lookup_dict_insert]
      by_cases h : sanitize_header cell == k
      · simp [h]
      · simp [h]

end Housing

namespace Housing

/-! ### Claim C1 -/

/-- Claim C1 (code bug witness): the spec says header location fails with
HeaderNotFound only when no cell in any row matches, and in particular
succeeds when the match is in row 0.  On the grid `[["colA"]]` with expected
headers `["cola"]` row 0 does match, yet `_find_headers` raises its
could-not-find `ValueError`, because `if not header_row_num:` treats the
found row number 0 as falsy. -/
theorem find_headers_row_zero_bug :
    row_is_header_row ["cola"] ["colA"] = true ∧
    find_headers [["colA"]] ["cola"] = .error (.headerNotFound ["cola"] [["colA"]]) :=
  ⟨rfl, rfl⟩

/-! ### Claim C2 -/

/-- Claim C2 counterexample: for the HeaderMap `[("a", 0)]` with header row 1,
the single sort request issued by `smart_sort` has row range starting at the
header row (1), not at header row + 1 (2) as the claim states. -/
theorem smart_sort_region_cex :
    smart_sort [("a", 0)] 1 "a" true
      = .ok (sort_requests 0 ⟨0, 1, MAX_COLS, MAX_ROWS⟩ true) ∧
    sort_requests 0 ⟨0, 1, MAX_COLS, MAX_ROWS⟩ true
      ≠ sort_requests 0 ⟨0, 1 + 1, MAX_COLS, MAX_ROWS⟩ true :=
  ⟨rfl, by decide⟩

/-- Claim C2 (amended): for every HeaderMap with located header row `h` and
every sort column present in it, `smart_sort` issues exactly one sort
request, whose region is rows `h` (the header row itself, which anchors the
basic filter) through MAX_ROWS and columns 0 through MAX_COLS. -/
theorem smart_sort_amended (hm : HeaderMap) (h : Nat) (k : String) (asc : Bool) (col : Nat)
    (hcol : List.lookup k hm = some col) :
    smart_sort hm h k asc =
      .ok [⟨col, if asc then "ASCENDING" else "DESCENDING", ⟨0, h, MAX_ROWS, 0, MAX_COLS⟩⟩] := by
  simp [smart_sort, hcol, sort_requests, GridRange.to_google_GridRange]

/-- Witness for the amended C2 theorem at a concrete input. -/
theorem smart_sort_amended_witness :
    smart_sort [("cola", 1)] 2 "cola" false
      = .ok [⟨1, if false then "ASCENDING" else "DESCENDING", ⟨0, 2, MAX_ROWS, 0, MAX_COLS⟩⟩] :=
  smart_sort_amended [("cola", 1)] 2 "cola" false 1 rfl

/-! ### Claim C5 -/

/-- Claim C5 counterexample: on the grid whose header row (row 1) is
`["colA", "", "colB"]`, the resulting HeaderMap is *not* one entry per
non-empty cell with empty columns skipped — the empty header cell
contributes the entry `("", 1)`. -/
theorem header_map_empty_cell_cex :
    find_headers [[], ["colA", "", "colB"]] ["cola"]
      = .ok ⟨[("cola", 0), ("", 1), ("colb", 2)], 1⟩ ∧
    List.lookup "" ([("cola", 0), ("", 1), ("colb", 2)] : HeaderMap) = some 1 :=
  ⟨rfl, rfl⟩

/-! ### Claim C9 -/

theorem foldl_append_filter {α γ : Type} [DecidableEq γ] (l : List α) (g : α → List γ) :
    ∀ acc : List (List γ),
      l.foldl (fun result i => if g i ≠ [] then result ++ [g i] else result) acc
        = acc ++ (l.map g).filter (fun m => !m.isEmpty) := by
  induction l with
  | nil => intro acc; simp
  | cons a rest ih =>
    intro acc
    simp only [List.foldl_cons]
    by_cases h : g a = []
    · have hstep : (if g a ≠ [] then acc ++ [g a] else acc) = acc := by simp [h]
      rw [hstep, ih acc]
      have hemp : (!(g a).isEmpty) = false := by simp [List.isEmpty_iff, h]
      simp [hemp, List.filter_cons]
    · have hstep : (if g a ≠ [] then acc ++ [g a] else acc) = acc ++ [g a] := by simp [h]
      rw [hstep, ih (acc ++ [g a])]
      have hemp : (!(g a).isEmpty) = true := by simp [List.isEmpty_iff, h]
      simp [hemp, List.filter_cons, List.append_assoc]

theorem smart_row_of_foldl (row : Row) :
    ∀ (hm : HeaderMap) (acc : SmartRow),
      (hm.map Prod.fst).Nodup →
      (∀ q ∈ acc, q.1 ∉ hm.map Prod.fst) →
      hm.foldl
        (fun row_result p =>
          if p.2 < row.length then
            if row.getD p.2 "" ≠ "" then dict_insert row_result p.1 (row.getD p.2 "")
            else row_result
          else row_result)
        acc = acc ++ spec_keyed_row hm row := by
  intro hm
  induction hm with
  | nil => intro acc _ _; simp [spec_keyed_row]
  | cons p rest ih =>
    intro acc hnodup hdisj
    simp only [List.map_cons, List.nodup_cons] at hnodup
    have hd2 : ∀ q ∈ acc, q.1 ∉ rest.map Prod.fst := by
      intro q hq
      have := hdisj q hq
      simp only [List.map_cons, List.mem_cons] at this
      exact fun h => this (Or.inr h)
    rw [List.foldl_cons]
    by_cases hcond : p.2 < row.length ∧ row.getD p.2 "" ≠ ""
    · have hnotin : ∀ q ∈ acc, q.1 ≠ p.1 := by
        intro q hq
        have := hdisj q hq
        simp only [List.map_cons, List.mem_cons] at this
        exact fun h => this (Or.inl h)
      have hstep : (if p.2 < row.length then
            if row.getD p.2 "" ≠ "" then dict_insert acc p.1 (row.getD p.2 "") else acc
          else acc) = acc ++ [(p.1, row.getD p.2 "")] := by
        rw [if_pos hcond.1, if_pos hcond.2, dict_insert_append acc p.1 _ hnotin]
      rw [hstep]
      have hd2' : ∀ q ∈ acc ++ [(p.1, row.getD p.2 "")], q.1 ∉ rest.map Prod.fst := by
        intro q hq
        rcases List.mem_append.mp hq with hq | hq
        · exact hd2 q hq
        · simp only [List.mem_singleton] at hq
          subst hq
          exact hnodup.1
      rw [ih (acc ++ [(p.1, row.getD p.2 "")]) hnodup.2 hd2']
      have hhead : spec_keyed_row (p :: rest) row
          = (p.1, row.getD p.2 "") :: spec_keyed_row rest row := by
        unfold spec_keyed_row
        rw [List.filterMap_cons, if_pos hcond]
      rw [hhead, List.append_assoc]
      rfl
    · have hstep : (if p.2 < row.length then
            if row.getD p.2 "" ≠ "" then dict_insert acc p.1 (row.getD p.2 "") else acc
          else acc) = acc := by
        by_cases hlt : p.2 < row.length
        · have hc : ¬row.getD p.2 "" ≠ "" := fun h => hcond ⟨hlt, h⟩
          rw [if_pos hlt, if_neg hc]
        · rw [if_neg hlt]
      rw [hstep, ih acc hnodup.2 hd2]
      have hhead : spec_keyed_row (p :: rest) row = spec_keyed_row rest row := by
        unfold spec_keyed_row
        rw [List.filterMap_cons, if_neg hcond]
      rw [hhead]

/-- Claim C9: for every Grid and HeaderMap (with its header names distinct, as
header maps are mappings), the keyed-mapping construction of `smart_get`
produces, for each row index from header_row+1 to the end of the Grid,
exactly the pairs `(name, row[col])` with `col` inside the ragged row and a
non-empty cell, drops rows whose mapping is empty, and — being a total
function — never fails on reads past a ragged row's end. -/
theorem smart_get_matches_spec (sheet_data : Grid) (hd : HeaderData)
    (hkeys : (hd.header_to_col_num.map Prod.fst).Nodup) :
    smart_get sheet_data hd = spec_smart_get sheet_data hd := by
  rw [smart_get, spec_smart_get]
  rw [foldl_append_filter
    (List.range' (hd.header_row_num + 1) (sheet_data.length - (hd.header_row_num + 1)))
    (fun i => smart_row_of hd.header_to_col_num (sheet_data.getD i []))]
  rw [List.nil_append]
  congr 1
  apply List.map_congr_left
  intro i _
  rw [smart_row_of, smart_row_of_foldl (sheet_data.getD i []) hd.header_to_col_num []
    hkeys (by simp)]
  simp

/-- Witness for C9 at a concrete grid with a ragged row, a blank row and an
empty-celled row. -/
theorem smart_get_matches_spec_witness :
    smart_get [[], ["id", "colA"], ["1", "x"], ["", ""], ["2"]] ⟨[("id", 0), ("cola", 1)], 1⟩
      = spec_smart_get [[], ["id", "colA"], ["1", "x"], ["", ""], ["2"]]
          ⟨[("id", 0), ("cola", 1)], 1⟩ :=
  smart_get_matches_spec [[], ["id", "colA"], ["1", "x"], ["", ""], ["2"]]
    ⟨[("id", 0), ("cola", 1)], 1⟩ (by decide)

/-- Claim C5 (amended): when the header row is found, the HeaderMap maps each
sanitized cell text of that row — including the empty string produced by
empty header cells, which are not skipped — to the largest column index
whose cell sanitizes to that text (later duplicates overwrite earlier
entries); sanitized texts that occur in no cell are absent. -/
theorem header_map_amended (row : Row) (k : String) :
    List.lookup k (build_header_to_col_num row) = last_col_from 0 row k := by
  rw [build_header_to_col_num, lookup_build_header_aux row 0 [] k]
  cases last_col_from 0 row k <;> simp [List.lookup]

/-! ### Update path: helper lemmas -/

theorem update_ops_fold_char (hm : HeaderMap) (pks : List String) (row_num : Nat)
    (r : SmartRow) :
    ∀ acc : Bool × List UpdateOp,
      r.foldl
        (fun acc p =>
          if pks.contains p.1 then acc
          else
            match List.lookup p.1 hm with
            | none => acc
            | some col_num => (true, acc.2 ++ [⟨row_col_num_to_A1 row_num col_num, [[p.2]]⟩]))
        acc
      = (acc.1 || !(update_hits hm pks r).isEmpty,
         acc.2 ++ (update_hits hm pks r).map
           (fun p => ⟨row_col_num_to_A1 row_num ((List.lookup p.1 hm).getD 0), [[p.2]]⟩)) := by
  induction r with
  | nil => intro acc; simp [update_hits]
  | cons p rest ih =>
    intro acc
    simp only [List.foldl_cons]
    by_cases hcont : pks.contains p.1
    · have hstep : (if pks.contains p.1 then acc
          else
            match List.lookup p.1 hm with
            | none => acc
            | some col_num => (true, acc.2 ++ [⟨row_col_num_to_A1 row_num col_num, [[p.2]]⟩]))
          = acc := if_pos hcont
      have hcard : (!pks.contains p.1 && (List.lookup p.1 hm).isSome) = false := by
        rw [hcont]; rfl
      have hhits : update_hits hm pks (p :: rest) = update_hits hm pks rest := by
        unfold update_hits
        rw [List.filter_cons, hcard]
        simp
      rw [hstep, ih acc, hhits]
    · have hcf : pks.contains p.1 = false := by
        simpa using hcont
      rcases Option.eq_none_or_eq_some (List.lookup p.1 hm) with hlk | ⟨col_num, hlk⟩
      · have hstep : (if pks.contains p.1 then acc
            else
              match List.lookup p.1 hm with
              | none => acc
              | some col_num =>
                (true, acc.2 ++ [⟨row_col_num_to_A1 row_num col_num, [[p.2]]⟩]))
            = acc := by
          rw [if_neg hcont, hlk]
        have hcard : (!pks.contains p.1 && (List.lookup p.1 hm).isSome) = false := by
          rw [hcf, hlk]; rfl
        have hhits : update_hits hm pks (p :: rest) = update_hits hm pks rest := by
          unfold update_hits
          rw [List.filter_cons, hcard]
          simp
        rw [hstep, ih acc, hhits]
      · have hstep : (if pks.contains p.1 then acc
            else
              match List.lookup p.1 hm with
              | none => acc
              | some col_num =>
                (true, acc.2 ++ [⟨row_col_num_to_A1 row_num col_num, [[p.2]]⟩]))
            = (true, acc.2 ++ [⟨row_col_num_to_A1 row_num col_num, [[p.2]]⟩]) := by
          rw [if_neg hcont, hlk]
        have hcard : (!pks.contains p.1 && (List.lookup p.1 hm).isSome) = true := by
          rw [hcf, hlk]; rfl
        have hhits : update_hits hm pks (p :: rest) = p :: update_hits hm pks rest := by
          unfold update_hits
          rw [List.filter_cons, hcard]
          simp
        rw [hstep, ih (true, acc.2 ++ [UpdateOp.mk (row_col_num_to_A1 row_num col_num) [[p.2]]]),
          hhits]
        simp [hlk, List.append_assoc]

theorem process_row_ok_appends (hm : HeaderMap) (pks : List String)
    (ki : List (PrimaryKey × Nat)) (u : Bool) (i : Nat) (r : SmartRow)
    (nops : List UpdateOp) (napp : List SmartRow)
    (h : process_row hm pks ki u i r = .ok (nops, napp)) :
    napp = if (List.lookup (row_to_primary_key_values pks r) ki).isNone then [r] else [] := by
  simp only [process_row] at h
  split at h
  · split at h
    · split at h
      · rename_i hlk _
        simp only [Except.ok.injEq, Prod.mk.injEq] at h
        simp [hlk, h.2.symm]
      · cases h
    · rename_i row_num hlk
      split at h
      · simp only [Except.ok.injEq, Prod.mk.injEq] at h
        simp [hlk, h.2.symm]
      · cases h
  · cases h

theorem build_update_plan_aux_appends (hm : HeaderMap) (pks : List String)
    (ki : List (PrimaryKey × Nat)) (u : Bool) (l : List SmartRow) :
    ∀ (i : Nat) (ops0 : List UpdateOp) (app0 : List SmartRow)
      (ops : List UpdateOp) (appends : List SmartRow),
      build_update_plan_aux hm pks ki u i l ops0 app0 = .ok (ops, appends) →
      appends = app0 ++ l.filter
        (fun s => (List.lookup (row_to_primary_key_values pks s) ki).isNone) := by
  induction l with
  | nil =>
    intro i ops0 app0 ops appends h
    simp only [build_update_plan_aux, Except.ok.injEq, Prod.mk.injEq] at h
    simp [h.2.symm]
  | cons r rest ih =>
    intro i ops0 app0 ops appends h
    simp only [build_update_plan_aux] at h
    cases hp : process_row hm pks ki u i r with
    | error e => rw [hp] at h; cases h
    | ok out =>
      rcases out with ⟨nops, napp⟩
      rw [hp] at h
      have hrec := ih (i + 1) (ops0 ++ nops) (app0 ++ napp) ops appends h
      rw [hrec, process_row_ok_appends hm pks ki u i r nops napp hp, List.filter_cons]
      by_cases hn : (List.lookup (row_to_primary_key_values pks r) ki).isNone = true
      · simp [hn, List.append_assoc]
      · simp [hn]

theorem build_update_plan_aux_ok_mem (hm : HeaderMap) (pks : List String)
    (ki : List (PrimaryKey × Nat)) (u : Bool) (l : List SmartRow) :
    ∀ (i : Nat) (ops0 : List UpdateOp) (app0 : List SmartRow)
      (res : List UpdateOp × List SmartRow),
      build_update_plan_aux hm pks ki u i l ops0 app0 = .ok res →
      ∀ s ∈ l, ∃ j out, process_row hm pks ki u j s = .ok out := by
  induction l with
  | nil => intro i ops0 app0 res _ s hs; cases hs
  | cons r rest ih =>
    intro i ops0 app0 res h s hs
    simp only [build_update_plan_aux] at h
    cases hp : process_row hm pks ki u i r with
    | error e => rw [hp] at h; cases h
    | ok out =>
      rw [hp] at h
      rcases List.mem_cons.mp hs with hs | hs
      · subst hs
        exact ⟨i, out, hp⟩
      · exact ih (i + 1) (ops0 ++ out.1) (app0 ++ out.2) res h s hs

/-! ### Claim C6 -/

/-- Claim C6: a record on the update path (primary key supplied and found in
the key index) that sets exactly one non-key field, whose name is in the
HeaderMap, produces exactly one single-cell write operation targeting the
indexed row number and that field's column — and no other operation for
that row. -/
theorem update_locality (hm : HeaderMap) (pks : List String)
    (ki : List (PrimaryKey × Nat)) (upsert : Bool) (i row_num : Nat) (r : SmartRow)
    (f v : String) (col : Nat)
    (hkey : (pks.any fun k => (List.lookup k r).isSome) = true)
    (hfound : List.lookup (row_to_primary_key_values pks r) ki = some row_num)
    (hone : r.filter (fun p => !pks.contains p.1) = [(f, v)])
    (hcol : List.lookup f hm = some col) :
    process_row hm pks ki upsert i r =
      .ok ([⟨row_col_num_to_A1 row_num col, [[v]]⟩], []) := by
  have hhits : update_hits hm pks r = [(f, v)] := by
    have hsplit : update_hits hm pks r
        = List.filter (fun p => (List.lookup p.1 hm).isSome)
            (List.filter (fun p => !pks.contains p.1) r) := by
      rw [List.filter_filter]
      unfold update_hits
      apply List.filter_congr
      intro x _
      exact Bool.and_comm _ _
    rw [hsplit, hone, List.filter_cons]
    simp [hcol]
  simp only [process_row, hkey, if_true, hfound, update_ops_fold]
  rw [update_ops_fold_char hm pks row_num r (false, [])]
  simp [hhits, hcol]

/-- Witness for C6: one record keyed by id updating only colb. -/
theorem update_locality_witness :
    process_row [("id", 0), ("cola", 1), ("colb", 2)] ["id"] [([some "1"], 2)] true 0
        [("id", "1"), ("colb", "y")]
      = .ok ([⟨row_col_num_to_A1 2 2, [["y"]]⟩], []) :=
  update_locality [("id", 0), ("cola", 1), ("colb", 2)] ["id"] [([some "1"], 2)] true 0 2
    [("id", "1"), ("colb", "y")] "colb" "y" 2 rfl rfl rfl rfl

/-! ### Claim C7 -/

/-- Claim C7: for a record supplying at least one primary-key field, a key
tuple found in the key index takes the update path (no append is queued; the
result is either cell ops or the no-updatable-columns failure); an absent
tuple queues the record for append when upsert is true and fails with the
unknown-record error when upsert is false; and across a whole successful
batch the append queue is exactly the key-missing records in input order. -/
theorem upsert_routing (hm : HeaderMap) (pks : List String)
    (ki : List (PrimaryKey × Nat)) (i : Nat) (r : SmartRow)
    (hkey : (pks.any fun k => (List.lookup k r).isSome) = true) :
    (∀ row_num, List.lookup (row_to_primary_key_values pks r) ki = some row_num →
      ∀ u : Bool, (∃ ops, process_row hm pks ki u i r = .ok (ops, [])) ∨
        process_row hm pks ki u i r = .error (.noUpdatableColumns i)) ∧
    (List.lookup (row_to_primary_key_values pks r) ki = none →
      process_row hm pks ki true i r = .ok ([], [r]) ∧
      process_row hm pks ki false i r =
        .error (.unknownRecord i (row_to_primary_key_values pks r))) ∧
    (∀ (vals : List SmartRow) (u : Bool) (ops : List UpdateOp) (appends : List SmartRow),
      build_update_plan hm pks ki u vals = .ok (ops, appends) →
      appends = vals.filter
        (fun s => (List.lookup (row_to_primary_key_values pks s) ki).isNone)) := by
  refine ⟨?_, ?_, ?_⟩
  · intro row_num hfound u
    simp only [process_row, hkey, if_true, hfound]
    by_cases hb : (update_ops_fold hm pks row_num r).1 = true
    · exact Or.inl ⟨(update_ops_fold hm pks row_num r).2, by simp [hb]⟩
    · exact Or.inr (by simp [hb])
  · intro hnone
    constructor
    · simp [process_row, hkey, hnone]
    · simp [process_row, hkey, hnone]
  · intro vals u ops appends h
    have := build_update_plan_aux_appends hm pks ki u vals 0 [] [] ops appends h
    simpa using this

/-- Witness for C7 at a concrete key index and record. -/
theorem upsert_routing_witness :
    ((∀ row_num, List.lookup (row_to_primary_key_values ["id"] [("id", "1"), ("colb", "y")])
          [([some "1"], 2)] = some row_num →
      ∀ u : Bool, (∃ ops, process_row [("id", 0), ("colb", 2)] ["id"] [([some "1"], 2)] u 0
          [("id", "1"), ("colb", "y")] = .ok (ops, [])) ∨
        process_row [("id", 0), ("colb", 2)] ["id"] [([some "1"], 2)] u 0
          [("id", "1"), ("colb", "y")] = .error (.noUpdatableColumns 0)) ∧
    (List.lookup (row_to_primary_key_values ["id"] [("id", "1"), ("colb", "y")])
        [([some "1"], 2)] = none →
      process_row [("id", 0), ("colb", 2)] ["id"] [([some "1"], 2)] true 0
          [("id", "1"), ("colb", "y")] = .ok ([], [[("id", "1"), ("colb", "y")]]) ∧
      process_row [("id", 0), ("colb", 2)] ["id"] [([some "1"], 2)] false 0
          [("id", "1"), ("colb", "y")] =
        .error (.unknownRecord 0 (row_to_primary_key_values ["id"]
          [("id", "1"), ("colb", "y")]))) ∧
    (∀ (vals : List SmartRow) (u : Bool) (ops : List UpdateOp) (appends : List SmartRow),
      build_update_plan [("id", 0), ("colb", 2)] ["id"] [([some "1"], 2)] u vals
        = .ok (ops, appends) →
      appends = vals.filter
        (fun s => (List.lookup (row_to_primary_key_values ["id"] s)
          [([some "1"], 2)]).isNone))) :=
  upsert_routing [("id", 0), ("colb", 2)] ["id"] [([some "1"], 2)] 0
    [("id", "1"), ("colb", "y")] rfl

/-! ### Claim C8 -/

/-- Claim C8: a record supplying none of the configured primary-key fields
always fails with the missing-primary-key error carrying its index,
whatever the upsert setting, and its presence anywhere in a batch prevents
the batch's operation-list construction from succeeding (fail-fast, not
per-record skip). -/
theorem missing_key_rejection (hm : HeaderMap) (pks : List String)
    (ki : List (PrimaryKey × Nat)) (r : SmartRow)
    (hnone : (pks.any fun k => (List.lookup k r).isSome) = false) :
    (∀ (u : Bool) (j : Nat), process_row hm pks ki u j r = .error (.missingPrimaryKey j)) ∧
    (∀ (vals : List SmartRow) (u : Bool), r ∈ vals →
      ∀ res, build_update_plan hm pks ki u vals ≠ .ok res) := by
  have h1 : ∀ (u : Bool) (j : Nat),
      process_row hm pks ki u j r = .error (.missingPrimaryKey j) := by
    intro u j
    simp [process_row, hnone]
  refine ⟨h1, ?_⟩
  intro vals u hmem res hok
  obtain ⟨j, out, hpr⟩ :=
    build_update_plan_aux_ok_mem hm pks ki u vals 0 [] [] res hok r hmem
  rw [h1 u j] at hpr
  cases hpr

/-- Witness for C8: a record with no primary-key field. -/
theorem missing_key_rejection_witness :
    ((∀ (u : Bool) (j : Nat), process_row [("id", 0)] ["id"] [] u j [("cola", "x")]
        = .error (.missingPrimaryKey j)) ∧
    (∀ (vals : List SmartRow) (u : Bool), [("cola", "x")] ∈ vals →
      ∀ res, build_update_plan [("id", 0)] ["id"] [] u vals ≠ .ok res)) :=
  missing_key_rejection [("id", 0)] ["id"] [] [("cola", "x")] rfl

/-! ### Claim C10 -/

/-- Claim C10: every record-level validation error of the update loop
(missing primary key, unknown key with upsert false, no updatable columns)
is raised while building the operation list, so a run that hits one makes
no write, append or sort call at all — the issued-call trace is empty. -/
theorem fail_fast_no_writes (sheet_data : Grid) (possible_headers : List String)
    (vals : List SmartRow) (pks : List String) (upsert : Bool)
    (sort_key : Option String) (sort_asc : Bool) (hd : HeaderData) (e : UpdateError)
    (hhd : find_headers sheet_data possible_headers = .ok hd)
    (hplan : build_update_plan hd.header_to_col_num pks
        (primary_keys_to_row_num pks hd.header_row_num (smart_get sheet_data hd))
        upsert vals = .error e) :
    smart_update_run sheet_data possible_headers vals pks upsert sort_key sort_asc
      = ([], some (.update e)) := by
  simp [smart_update_run, hhd, hplan]

/-- Witness for C10: a run whose first record lacks the primary key issues no
write call. -/
theorem fail_fast_no_writes_witness :
    smart_update_run [[], ["id", "colA"], ["1", "x"]] ["id"] [[("x", "1")]] ["id"] true
        (some "cola") true
      = ([], some (.update (.missingPrimaryKey 0))) :=
  fail_fast_no_writes [[], ["id", "colA"], ["1", "x"]] ["id"] [[("x", "1")]] ["id"] true
    (some "cola") true ⟨[("id", 0), ("cola", 1)], 1⟩ (.missingPrimaryKey 0) rfl rfl

/-! ### Append path: helper lemmas -/

theorem getD_replicate_empty (n j : Nat) :
    (List.replicate n ("" : String)).getD j "" = "" := by
  rw [List.getD_eq_getElem?_getD, List.getElem?_replicate]
  by_cases h : j < n <;> simp [h]

theorem fill_row_char (minc : Nat) (v : SmartRow) (entries : List (String × Nat)) :
    ∀ (acc : Row × Nat) (row : Row) (n : Nat),
      (entries.map Prod.snd).Nodup →
      fill_row minc v entries acc = .ok (row, n) →
      row.length = acc.1.length ∧
      (∀ name col val, (name, col) ∈ entries → List.lookup name v = some val → val ≠ "" →
        row.getD (minc + col) "" = val) ∧
      (∀ j : Nat, (∀ q ∈ entries, (List.lookup q.1 v).getD "" ≠ "" → j ≠ minc + q.2) →
        row.getD j "" = acc.1.getD j "") := by
  induction entries with
  | nil =>
    intro acc row n _ h
    have hacc : (Except.ok acc : Except AppendError (Row × Nat)) = .ok (row, n) := h
    injection hacc with hacc
    subst hacc
    exact ⟨rfl, fun name col val hmem => absurd hmem (List.not_mem_nil _), fun j _ => rfl⟩
  | cons e rest ih =>
    rcases e with ⟨header, col_num⟩
    intro acc row n hnodup h
    simp only [List.map_cons, List.nodup_cons] at hnodup
    rw [fill_row] at h
    split at h
    · rename_i hlk
      obtain ⟨hlen, hset, hframe⟩ := ih acc row n hnodup.2 h
      refine ⟨hlen, ?_, ?_⟩
      · intro name col val hmem hv hval
        rcases List.mem_cons.mp hmem with hmem | hmem
        · exfalso
          have hn : name = header := congrArg Prod.fst hmem
          rw [hn, hlk] at hv
          cases hv
        · exact hset name col val hmem hv hval
      · intro j hj
        exact hframe j (fun q hq => hj q (List.mem_cons_of_mem _ hq))
    · rename_i cell hlk
      split at h
      · rename_i hcell
        split at h
        · cases h
        · rename_i new_row hsc
          obtain ⟨hlen, hset, hframe⟩ := ih (new_row, acc.2 + 1) row n hnodup.2 h
          have hidx : minc + col_num < acc.1.length := by
            by_contra hge
            simp [set_cell, hge] at hsc
          have hnew : new_row = acc.1.set (minc + col_num) cell := by
            simp [set_cell, hidx] at hsc
            exact hsc.symm
          have hnlen : new_row.length = acc.1.length := by
            rw [hnew, List.length_set]
          refine ⟨by rw [hlen, hnlen], ?_, ?_⟩
          · intro name col val hmem hv hval
            rcases List.mem_cons.mp hmem with hmem | hmem
            · have hn : name = header := congrArg Prod.fst hmem
              have hc : col = col_num := congrArg Prod.snd hmem
              rw [hn, hlk] at hv
              injection hv with hv
              have hrow : row.getD (minc + col) "" = new_row.getD (minc + col) "" := by
                apply hframe
                intro q hq _ heq
                have hcq : col = q.2 := Nat.add_left_cancel heq
                have hqm : col_num ∈ List.map Prod.snd rest := by
                  rw [← hc, hcq]
                  exact List.mem_map_of_mem Prod.snd hq
                exact hnodup.1 hqm
              rw [hrow, hc, hnew, List.getD_eq_getElem?_getD,
                List.getElem?_set_self hidx]
              exact hv
            · exact hset name col val hmem hv hval
          · intro j hj
            have hju : j ≠ minc + col_num := by
              apply hj ⟨header, col_num⟩ (List.mem_cons_self _ _)
              rw [hlk]
              exact hcell
            rw [hframe j (fun q hq hqv => hj q (List.mem_cons_of_mem _ hq) hqv), hnew,
              List.getD_eq_getElem?_getD, List.getElem?_set_ne (fun hh => hju hh.symm),
              ← List.getD_eq_getElem?_getD]
      · rename_i hcell
        obtain ⟨hlen, hset, hframe⟩ := ih acc row n hnodup.2 h
        refine ⟨hlen, ?_, ?_⟩
        · intro name col val hmem hv hval
          rcases List.mem_cons.mp hmem with hmem | hmem
          · exfalso
            have hn : name = header := congrArg Prod.fst hmem
            rw [hn, hlk] at hv
            injection hv with hv
            have hce : cell = "" := by simpa using hcell
            exact hval (hv ▸ hce)
          · exact hset name col val hmem hv hval
        · intro j hj
          exact hframe j (fun q hq => hj q (List.mem_cons_of_mem _ hq))

/-! ### Claim C3 -/

/-- Claim C3 counterexample: the header row `["a", "b", "a", "c"]` (a duplicate
sanitized header) yields the HeaderMap `[("a", 2), ("b", 1), ("c", 3)]`, for
which the append path places the record value supplied for entry
`("b", 1)` at buffer index `min_col_num + 1 = 3`, not at index 1 as the
claim states. -/
theorem append_row_placement_cex :
    build_header_to_col_num ["a", "b", "a", "c"] = [("a", 2), ("b", 1), ("c", 3)] ∧
    build_append_row [("a", 2), ("b", 1), ("c", 3)] 0 [("b", "x")] = .ok ["", "", "", "x"] ∧
    List.getD ["", "", "", "x"] 1 "" ≠ "x" :=
  ⟨rfl, rfl, by decide⟩

/-- Claim C3 (amended): for every queued record in the append path, the built
row buffer has width `max_col_num + 1`, where `max_col_num` is the column
index of the HeaderMap's *last entry* (equal to the largest column index
when entries appear in increasing column order, as duplicate-free header
rows produce), it is initialized to empty cells, and each non-empty value
the record supplies for a HeaderMap entry `(name, col)` is placed at index
`min_col_num + col`, where `min_col_num` is the column index of the
HeaderMap's *first entry* (0 for such duplicate-free header rows, in which
case the placement index is `col` as originally claimed); all other
positions stay empty. -/
theorem append_row_amended (hm : HeaderMap) (i : Nat) (v : SmartRow) (row : Row)
    (hnodup : (hm.map Prod.snd).Nodup)
    (hok : build_append_row hm i v = .ok row) :
    row.length = max_col_num hm + 1 ∧
    (∀ name col val, (name, col) ∈ hm → List.lookup name v = some val → val ≠ "" →
      row.getD (min_col_num hm + col) "" = val) ∧
    (∀ j : Nat, (∀ q ∈ hm, (List.lookup q.1 v).getD "" ≠ "" → j ≠ min_col_num hm + q.2) →
      row.getD j "" = "") := by
  simp only [build_append_row] at hok
  rcases hfr : fill_row (min_col_num hm) v hm (List.replicate (max_col_num hm + 1) "", 0)
    with e | ⟨row_data, populated⟩
  · rw [hfr] at hok
    cases hok
  · rw [hfr] at hok
    have hok2 : (if populated = 0 then Except.error (AppendError.noMatchingColumns i)
        else Except.ok row_data) = Except.ok row := hok
    by_cases hz : populated = 0
    · rw [if_pos hz] at hok2
      cases hok2
    · rw [if_neg hz] at hok2
      injection hok2 with hok2
      subst hok2
      obtain ⟨hlen, hset, hframe⟩ :=
        fill_row_char (min_col_num hm) v hm (List.replicate (max_col_num hm + 1) "", 0)
          row_data populated hnodup hfr
      refine ⟨by rw [hlen]; simp, hset, ?_⟩
      intro j hj
      rw [hframe j hj]
      exact getD_replicate_empty (max_col_num hm + 1) j

/-- Witness for the amended C3 theorem: two headers, a record supplying only
the second. -/
theorem append_row_amended_witness :
    (["", "x"] : Row).length = max_col_num [("a", 0), ("b", 1)] + 1 ∧
    (∀ name col val, (name, col) ∈ ([("a", 0), ("b", 1)] : HeaderMap) →
      List.lookup name [("b", "x")] = some val → val ≠ "" →
      (["", "x"] : Row).getD (min_col_num [("a", 0), ("b", 1)] + col) "" = val) ∧
    (∀ j : Nat, (∀ q ∈ ([("a", 0), ("b", 1)] : HeaderMap),
        (List.lookup q.1 [("b", "x")]).getD "" ≠ "" →
        j ≠ min_col_num [("a", 0), ("b", 1)] + q.2) →
      (["", "x"] : Row).getD j "" = "") :=
  append_row_amended [("a", 0), ("b", 1)] 0 [("b", "x")] ["", "x"] (by decide) rfl

/-! ### Claim C4 -/

/-- Claim C4 counterexample: with the header row at index 1 and HeaderMap
`[("a", 0)]`, the append call is anchored at the A1 cell "A2" — the header
row itself (0-based row 1) — not at the first row strictly below the header
row (0-based row 2, A1 "A3") as the claim states. -/
theorem smart_append_anchor_cex :
    smart_append [("a", 0)] 1 [[("a", "x")]] = .ok ("A2", [["x"]]) ∧
    ("A2" : String) ≠ row_col_num_to_A1 (1 + 1) 0 :=
  ⟨rfl, by decide⟩

/-- Claim C4 (amended): the append path submits all built rows as a single
append call whose anchor cell is the header row's own cell — 0-based row
`header_row` (written in A1 notation with row number `header_row + 1`) —
at column `min_col_num`, the column index of the HeaderMap's first entry
(the smallest column index for duplicate-free header rows); the sink's
append semantics then places the rows below the existing data block found
at that anchor. -/
theorem smart_append_anchor_amended (hm : HeaderMap) (header_row_num : Nat)
    (vals : List SmartRow) (anchor : String) (rows : List Row)
    (hok : smart_append hm header_row_num vals = .ok (anchor, rows)) :
    anchor = row_col_num_to_A1 header_row_num (min_col_num hm) ∧
    build_append_data hm 0 vals = .ok rows := by
  simp only [smart_append] at hok
  rcases hbd : build_append_data hm 0 vals with e | append_data
  · rw [hbd] at hok
    cases hok
  · rw [hbd] at hok
    injection hok with hok
    injection hok with h1 h2
    exact ⟨h1.symm, by rw [h2]⟩

/-- Witness for the amended C4 theorem. -/
theorem smart_append_anchor_amended_witness :
    ("A2" : String) = row_col_num_to_A1 1 (min_col_num [("a", 0)]) ∧
    build_append_data [("a", 0)] 0 [[("a", "x")]] = .ok [["x"]] :=
  smart_append_anchor_amended [("a", 0)] 1 [[("a", "x")]] "A2" [["x"]] rfl

end Housing
